import Mathlib

/-!
Verification development for the `swap_price_from_meteora` repository.

The repository has two drivers that track a SOL→token swap price:
* `src/unnamed/part_000` (`dammv2_swapInfo.ts`, class `SwapPriceTracker`) — the
  constant-product (DAMM v2 / cp-amm) model, driven by `src/index.ts`;
* `src/price_final.ts` — the bin (DLMM) model.

This file shallowly embeds the pure data-flow of both drivers.  Network calls
(the pool-index API, `getMint`, `fetchPoolState`, `getQuote`, the DLMM SDK)
are modelled as explicit inputs / environment records: the embedded functions
receive the values the network would deliver.  JavaScript numbers and
BigNumber values are embedded as `ℚ` (exact rational semantics of the
arithmetic expressions written in the source); on-chain integer amounts are
also carried in `ℚ` since no claim depends on integer overflow.  A JS value
`parseFloat(s || "0")` for an optional numeric string field is embedded as an
`Option ℚ` field read with `Option.getD 0` (a missing/empty string parses to
`0`).  Fallible calls are `Except String`; an uncaught JS exception is an
`Except.error` that propagates.
-/

/-- Base58 address of wrapped SOL, from `CONSTANTS.ts` and the two drivers. -/
def SOL_MINT_B58 : String := "So11111111111111111111111111111111111111112"

/-- Pool record delivered by the DAMM v2 pool-index API
(`interface PoolData` in `src/unnamed/part_000`).  Fields no claim touches
(`token_a_amount`, `token_b_amount`, `fee_bps`, `pool_price`) are omitted.
`tvl` is the parsed value of the `tvl` string field (`none` = field missing
or empty, which `parseFloat(pool.tvl || "0")` reads as `0`). -/
structure PoolData where
  pool_address : String
  token_a_mint : String
  token_b_mint : String
  tvl : Option ℚ
  token_a_symbol : Option String
  token_b_symbol : Option String
  deriving DecidableEq

/-- Embeds `parseFloat(pool.tvl || "0")` from `findHighestTvlPool` and the
result record of `getRealtimeSwapPrice` (part_000). -/
def parseTvl (p : PoolData) : ℚ := p.tvl.getD 0

/-- Pool record delivered by the DLMM pool-index API
(`interface PoolData` in `src/price_final.ts`).  Fields no claim touches
(`bin_step`, `current_price`, the symbol fields) are omitted.  `liquidity`
is the parsed value of the `liquidity` string field, as for `PoolData.tvl`. -/
structure DlmmPoolData where
  address : String
  name : String
  mint_x : String
  mint_y : String
  reserve_x_amount : ℚ
  reserve_y_amount : ℚ
  liquidity : Option ℚ
  deriving DecidableEq

/-- Embeds `parseFloat(pool.liquidity || "0")` from `src/price_final.ts`. -/
def parseLiquidity (p : DlmmPoolData) : ℚ := p.liquidity.getD 0

/-- Result object of a realtime-swap-price pass.  The source returns either
`{ error: <msg> }` or the success record of `getRealtimeSwapPrice`
(part_000: pool_address, amount_out_for_1_SOL, total_tvl, token_symbol,
token_address; the `toFixed` calls are display formatting and are embedded
as the underlying rational values). -/
inductive ObsRecord where
  | err (error : String)
  | ok (pool_address : String) (amount_out_for_1_SOL : ℚ) (total_tvl : ℚ)
      (token_symbol : Option String) (token_address : String)
  deriving DecidableEq

/-! ## Pool selection -/

/-- The reduction step of `findHighestTvlPool` (part_000), generalized over
the ranking function so the same lemmas serve both drivers:
`(max, curr) => parseFloat(curr.tvl || "0") > parseFloat(max.tvl || "0") ? curr : max`. -/
def selStep {α : Type} (f : α → ℚ) (best curr : α) : α :=
  if f curr > f best then curr else best

/-- Embeds `findHighestTvlPool` (part_000):
`pools.length > 0 ? pools.reduce((max, curr) => parseFloat(curr.tvl||"0") > parseFloat(max.tvl||"0") ? curr : max) : null`.
JS `reduce` with no initial value folds the tail with the head as seed. -/
def findHighestTvlPool (pools : List PoolData) : Option PoolData :=
  match pools with
  | [] => none
  | p :: rest =>
      some (rest.foldl (fun best curr => if parseTvl curr > parseTvl best then curr else best) p)

/-- Stable descending insertion by a rational rank.  Embeds the effect of
JS `Array.prototype.sort((a, b) => rank(b) - rank(a))`: ECMAScript sort is
stable, so elements of equal rank keep their input order; inserting an
element before the first strictly-smaller-or-equal-ranked one reproduces
exactly that order. -/
def insertByDesc {α : Type} (f : α → ℚ) (p : α) : List α → List α
  | [] => [p]
  | q :: l => if f p ≥ f q then p :: q :: l else q :: insertByDesc f p l

/-- Stable descending sort by a rational rank (see `insertByDesc`). -/
def sortByDesc {α : Type} (f : α → ℚ) (l : List α) : List α :=
  l.foldr (insertByDesc f) []

/-- Embeds `findHighestLiquidityPool` (price_final.ts): empty guard, then
`pools.sort((a, b) => parseFloat(b.liquidity||"0") - parseFloat(a.liquidity||"0"))[0]`. -/
def findHighestLiquidityPool (pools : List DlmmPoolData) : Option DlmmPoolData :=
  if pools.length = 0 then none
  else (sortByDesc parseLiquidity pools).head?

/-- Reference form shared by both selectors: seed the scan with the head and
fold the tail with the strict-greater step. -/
def selectMax {α : Type} (f : α → ℚ) : List α → Option α
  | [] => none
  | p :: rest => some (rest.foldl (selStep f) p)

/-! ## Discovery -/

/-- Embeds the accumulation loop of `SwapPriceTracker.fetchSolTokenPools`
(part_000).  `fetched` is the concatenation, in delivery order, of all pool
records returned across the pages of the two query strategies
(`token_a_mint = tokenAddress`, then `token_b_mint = tokenAddress`); the
query parameters themselves live on the network side.  Per record the code
keeps it iff the pool id was not seen before and
`[pool.token_a_mint, pool.token_b_mint].includes(SOL_MINT.toBase58())`.
Note the target token is NOT re-checked here. -/
def fetchStepDamm (st : List String × List PoolData) (pool : PoolData) :
    List String × List PoolData :=
  if pool.pool_address ∉ st.1 ∧
      (pool.token_a_mint = SOL_MINT_B58 ∨ pool.token_b_mint = SOL_MINT_B58) then
    (pool.pool_address :: st.1, st.2 ++ [pool])
  else st

/-- Full accumulation of `SwapPriceTracker.fetchSolTokenPools` (part_000)
over the delivered records, starting from an empty seen-set and result
list.  `tokenAddress` only parameterizes the upstream query URL; the loop
body never consults it. -/
def fetchSolTokenPoolsDamm (tokenAddress : String) (fetched : List PoolData) : List PoolData :=
  let _ := tokenAddress
  (fetched.foldl fetchStepDamm ([], [])).2

/-- JS `String.prototype.toLowerCase` restricted to its per-character
action, written by structural recursion over the character list so the
kernel can evaluate it (core's `String.toLower` is position-based). -/
def jsToLower (s : String) : String := ⟨s.data.map Char.toLower⟩

/-- JS `String.prototype.trim`: strip leading and trailing whitespace. -/
def jsTrim (s : String) : String :=
  ⟨((s.data.dropWhile Char.isWhitespace).reverse.dropWhile Char.isWhitespace).reverse⟩

/-- Lower-cased SOL address, `const solAddressStr = SOL_MINT.toBase58().toLowerCase()`
in `src/price_final.ts`. -/
def solAddressStr : String := jsToLower SOL_MINT_B58

/-- Acceptance predicate of the DLMM `fetchSolTokenPools` loop
(price_final.ts): `isSolToToken && hasLiquidity && hasReserves`, with
`mintX = pool.mint_x.toLowerCase().trim()` and likewise for `mint_y`.
`tokenAddressStr` is the pre-normalized
`tokenAddress.toBase58().toLowerCase().trim()`. -/
def dlmmAccept (tokenAddressStr : String) (pool : DlmmPoolData) : Prop :=
  ((jsTrim (jsToLower pool.mint_x) = solAddressStr ∧
      jsTrim (jsToLower pool.mint_y) = tokenAddressStr) ∨
    (jsTrim (jsToLower pool.mint_y) = solAddressStr ∧
      jsTrim (jsToLower pool.mint_x) = tokenAddressStr)) ∧
  parseLiquidity pool > 0 ∧
  (pool.reserve_x_amount > 0 ∧ pool.reserve_y_amount > 0)

instance (tk : String) (pool : DlmmPoolData) : Decidable (dlmmAccept tk pool) := by
  unfold dlmmAccept; infer_instance

/-- Embeds `fetchSolTokenPools` (price_final.ts): the loop over `allPools`
pushing every record satisfying `dlmmAccept`.  `allPools` is the array the
single unpaginated API call delivered. -/
def fetchSolTokenPoolsDlmm (tokenAddressStr : String) (allPools : List DlmmPoolData) :
    List DlmmPoolData :=
  allPools.filter (fun pool => decide (dlmmAccept tokenAddressStr pool))

/-! ## Constant-product (DAMM v2) quoter -/

/-- Embeds `const isSolOutput = pool.token_a_mint !== SOL_MINT.toBase58()`
(part_000). -/
def isSolOutput (pool : PoolData) : Prop := pool.token_a_mint ≠ SOL_MINT_B58

instance (pool : PoolData) : Decidable (isSolOutput pool) := by
  unfold isSolOutput; infer_instance

/-- Address whose mint is fetched as `outputMint` (part_000):
`isSolOutput ? pool.token_a_mint : pool.token_b_mint`. -/
def outputMintAddr (pool : PoolData) : String :=
  if isSolOutput pool then pool.token_a_mint else pool.token_b_mint

/-- Embeds the fee normalization of part_000:
`feeMint = isSolOutput ? inputMint : outputMint;`
`fee = totalFee / 10 ** feeMint.decimals`.
`inDec`/`outDec` are the decimal counts of the fetched `inputMint`
(always the SOL mint) and `outputMint`. -/
def feeDamm (pool : PoolData) (inDec outDec : ℕ) (totalFee : ℚ) : ℚ :=
  totalFee / 10 ^ (if isSolOutput pool then inDec else outDec)

/-- Embeds the price-direction fix-up of part_000 (lines 142–147):
`finalPrice = tokenAddress === pool.token_a_mint ? 1/rawPrice : rawPrice`,
where `rawPrice = getPriceFromSqrtPrice(sqrtPrice, decA, decB)` is the raw
side-B-per-side-A price (SDK function, abstracted as an input here). -/
def finalPriceDamm (tokenAddress token_a_mint : String) (rawPrice : ℚ) : ℚ :=
  if tokenAddress = token_a_mint then 1 / rawPrice else rawPrice

/-- Embeds the symbol pick of the part_000 result record:
`tokenAddress === pool.token_a_mint ? pool.token_a_symbol : pool.token_b_symbol`. -/
def symbolOf (tokenAddress : String) (pool : PoolData) : Option String :=
  if tokenAddress = pool.token_a_mint then pool.token_a_symbol else pool.token_b_symbol

/-- On-chain pool state as used by part_000 (`poolState.sqrtPrice`). -/
structure PoolState where
  sqrtPrice : ℚ
  deriving DecidableEq

/-- Result of `cpAmm.getQuote` as used by part_000. -/
structure QuoteOutcome where
  swapOutAmount : ℚ
  totalFee : ℚ
  deriving DecidableEq

/-- Chain / SDK environment of one `getRealtimeSwapPrice` pass (part_000).
`fetchPoolState` yields `none` when the fetched pool-state object is
null/undefined or has no keys (`!poolState || Object.keys(poolState).length === 0`);
`Except.error` on any field models the corresponding `await` throwing.
`priceFromSqrt` abstracts the SDK's `getPriceFromSqrtPrice`. -/
structure ChainEnvDamm where
  fetchPoolState : Except String (Option PoolState)
  getMintDec : String → Except String ℕ
  getQuote : Except String QuoteOutcome
  priceFromSqrt : ℚ → ℕ → ℕ → ℚ

/-- Embeds `SwapPriceTracker.getRealtimeSwapPrice` (part_000).  The function
has no try/catch of its own, so any throwing `await` surfaces as
`Except.error`.  The second component records whether `cpAmm.getQuote` was
invoked.  The computed `fee` and `finalPrice` are bound but, as in the
source, not part of the returned record (those fields are commented out). -/
def getRealtimeSwapPriceDamm (tokenAddress : String) (env : ChainEnvDamm)
    (fetched : List PoolData) : Except String ObsRecord × Bool :=
  let pools := fetchSolTokenPoolsDamm tokenAddress fetched
  match findHighestTvlPool pools with
  | none => (Except.ok (ObsRecord.err "No SOL-token pool found."), false)
  | some pool =>
    match env.fetchPoolState with
    | Except.error e => (Except.error e, false)
    | Except.ok none =>
        (Except.ok (ObsRecord.err "Failed to fetch or parse valid pool state."), false)
    | Except.ok (some ps) =>
      match env.getMintDec SOL_MINT_B58, env.getMintDec (outputMintAddr pool) with
      | Except.error e, _ => (Except.error e, false)
      | _, Except.error e => (Except.error e, false)
      | Except.ok inDec, Except.ok outDec =>
        match env.getQuote with
        | Except.error e => (Except.error e, true)
        | Except.ok q =>
          let amountOut := q.swapOutAmount / 10 ^ outDec
          let _fee := feeDamm pool inDec outDec q.totalFee
          match env.getMintDec pool.token_a_mint, env.getMintDec pool.token_b_mint with
          | Except.error e, _ => (Except.error e, true)
          | _, Except.error e => (Except.error e, true)
          | Except.ok decA, Except.ok decB =>
            let rawPrice := env.priceFromSqrt ps.sqrtPrice decA decB
            let _finalPrice := finalPriceDamm tokenAddress pool.token_a_mint rawPrice
            (Except.ok (ObsRecord.ok pool.pool_address amountOut (parseTvl pool)
              (symbolOf tokenAddress pool) tokenAddress), true)

/-! ## Bin (DLMM) quoter -/

/-- Embeds the instantaneous bin price of `getRealtimeSwapPrice`
(price_final.ts, lines 112–113):
`new BigNumber(Math.pow(1 + binStep / 10000, activeBinId)).multipliedBy(new BigNumber(10).pow(mintX.decimals - mintY.decimals))`,
under exact real-valued (here rational) semantics of the expression. -/
def priceOfYinX (binStep : ℚ) (activeBinId : ℤ) (decX decY : ℕ) : ℚ :=
  (1 + binStep / 10000) ^ activeBinId * (10 : ℚ) ^ ((decX : ℤ) - (decY : ℤ))

/-- Embeds `getRealtimeSwapPrice` (price_final.ts) at the granularity the
claims need: the no-pool branch, and the fact that the whole remaining body
sits inside `try { ... } catch (error) { return { error: ... } }`.
`tryBlock` is that body (network-dependent), returning its record or
throwing. -/
def getRealtimeSwapPriceDlmm (tokenAddressStr : String) (allPools : List DlmmPoolData)
    (tryBlock : DlmmPoolData → Except String ObsRecord) : ObsRecord :=
  match findHighestLiquidityPool (fetchSolTokenPoolsDlmm tokenAddressStr allPools) with
  | none => ObsRecord.err "No DLMM SOL-token pool found."
  | some pool =>
    match tryBlock pool with
    | Except.ok r => r
    | Except.error msg => ObsRecord.err ("Swap calculation failed: " ++ msg)

/-! ## Persistence -/

/-- One element of the persisted JSON array:
`{ timestamp: new Date().toISOString(), ...formatted }` where `formatted`
is the display-relabelled result record (the relabelling via `displayNames`
is a key-renaming projection and is kept abstract in `payload`). -/
structure SavedEntry where
  timestamp : String
  payload : ObsRecord
  deriving DecidableEq

/-- State of the output file before a persistence call. -/
inductive FileState where
  | absent
  | unreadable
  | nonArray
  | array (entries : List SavedEntry)
  deriving DecidableEq

/-- Embeds the read side of `saveFormattedResultToJson` (part_000):
`dataArray = []` unless the file exists, reads, parses, and is an array. -/
def readArray : FileState → List SavedEntry
  | FileState.array l => l
  | _ => []

/-- Embeds one call of `saveFormattedResultToJson` (part_000): read (with
self-healing to `[]`), push the new entry, rewrite the whole file. -/
def saveFormattedResultToJson (st : FileState) (e : SavedEntry) : FileState :=
  FileState.array (readArray st ++ [e])

/-- N sequential persistence calls. -/
def saveMany (st : FileState) (es : List SavedEntry) : FileState :=
  es.foldl saveFormattedResultToJson st

/-! ## Polling driver -/

/-- Embeds the polling loop of `main` (src/index.ts).  The input list holds,
per scheduled cycle, the outcome of that pass (quote + print + persist):
`Except.ok r` when the pass produced and persisted record `r`,
`Except.error m` when something inside the pass threw.  The `try` block
wraps the WHOLE `while (true)` loop, so a throwing pass transfers control to
the outer `catch` and the loop is gone.  Result: the records of the
completed cycles in order, and whether the driver was terminated by an
error reaching the outer catch. -/
def runDriver : List (Except String ObsRecord) → List ObsRecord × Bool
  | [] => ([], false)
  | Except.ok r :: rest =>
      let next := runDriver rest
      (r :: next.1, next.2)
  | Except.error _ :: _ => ([], true)

/-- True on a pass outcome that did not throw. -/
def passIsOk : Except String ObsRecord → Bool
  | Except.ok _ => true
  | Except.error _ => false

/-- Record of a non-throwing pass outcome. -/
def passRecord : Except String ObsRecord → Option ObsRecord
  | Except.ok r => some r
  | Except.error _ => none

/-! ## Concrete sample data (used by witnesses and counterexamples) -/

/-- Sample DAMM pool pairing SOL (side A) with token `TargetMint`. -/
def poolW1 : PoolData :=
  { pool_address := "PoolOne", token_a_mint := SOL_MINT_B58, token_b_mint := "TargetMint",
    tvl := some 5, token_a_symbol := some "SOL", token_b_symbol := some "TGT" }

/-- Second sample DAMM pool with the same TVL as `poolW1` (exercises ties). -/
def poolW2 : PoolData :=
  { pool_address := "PoolTwo", token_a_mint := SOL_MINT_B58, token_b_mint := "TargetMint",
    tvl := some 5, token_a_symbol := some "SOL", token_b_symbol := some "TGT" }

/-- DAMM pool pairing SOL with a mint that is NOT the requested token. -/
def poolOther : PoolData :=
  { pool_address := "PoolOther", token_a_mint := SOL_MINT_B58, token_b_mint := "SomeOtherMint",
    tvl := some 1, token_a_symbol := some "SOL", token_b_symbol := some "OTH" }

/-- DAMM pool with SOL on side A and a 6-decimal token on side B. -/
def poolFeeCE : PoolData :=
  { pool_address := "PoolFee", token_a_mint := SOL_MINT_B58, token_b_mint := "UsdTokenMint",
    tvl := some 3, token_a_symbol := some "SOL", token_b_symbol := some "USDQ" }

/-- Decimal table: 9 for SOL, 6 for every other mint. -/
def decCE : String → ℕ := fun a => if a = SOL_MINT_B58 then 9 else 6

/-- Sample DLMM pool pairing SOL (side X) with token `targettoken`. -/
def dlmmW1 : DlmmPoolData :=
  { address := "DlmmOne", name := "SOL-TGT", mint_x := SOL_MINT_B58, mint_y := "targettoken",
    reserve_x_amount := 1, reserve_y_amount := 2, liquidity := some 5 }

/-- Sample DLMM pool pairing SOL with `targettoken` but with zero liquidity. -/
def dlmmZero : DlmmPoolData :=
  { address := "DlmmZero", name := "SOL-TGT", mint_x := SOL_MINT_B58, mint_y := "targettoken",
    reserve_x_amount := 1, reserve_y_amount := 2, liquidity := some 0 }

/-- Chain environment whose pool-state fetch yields an empty/absent object. -/
def envNoState : ChainEnvDamm :=
  { fetchPoolState := Except.ok none,
    getMintDec := fun _ => Except.ok 9,
    getQuote := Except.ok { swapOutAmount := 0, totalFee := 0 },
    priceFromSqrt := fun _ _ _ => 0 }

/-- Sample persisted entries. -/
def entryW1 : SavedEntry :=
  { timestamp := "2025-01-01T00:00:00.000Z", payload := ObsRecord.err "No SOL-token pool found." }

/-- Second sample persisted entry. -/
def entryW2 : SavedEntry :=
  { timestamp := "2025-01-01T00:00:01.000Z",
    payload := ObsRecord.ok "PoolOne" (5/2) 5 (some "TGT") "TargetMint" }

/-- Sample observation record for driver runs. -/
def recW : ObsRecord := ObsRecord.err "No SOL-token pool found."

/-! ## Selector lemmas -/

/-- The strict-greater fold keeps the seed unless some element strictly
beats every running best; the result is always the first element attaining
the maximum of seed and list. -/
lemma foldl_selStep_split {α : Type} (f : α → ℚ) :
    ∀ (l : List α) (a : α),
      (l.foldl (selStep f) a = a ∧ ∀ q ∈ l, f q ≤ f a) ∨
      (∃ la lb, l = la ++ l.foldl (selStep f) a :: lb ∧
        f a < f (l.foldl (selStep f) a) ∧
        (∀ q ∈ la, f q < f (l.foldl (selStep f) a)) ∧
        (∀ q ∈ lb, f q ≤ f (l.foldl (selStep f) a))) := by
  intro l
  induction l with
  | nil => intro a; exact Or.inl ⟨rfl, by simp⟩
  | cons c l ih =>
    intro a
    rw [List.foldl_cons]
    by_cases hc : f c > f a
    · rw [show selStep f a c = c from if_pos hc]
      rcases ih c with ⟨he, hle⟩ | ⟨la, lb, heq, hlt, h1, h2⟩
      · refine Or.inr ⟨[], l, by simp [he], ?_, by simp, ?_⟩
        · rw [he]; exact hc
        · rw [he]; exact hle
      · refine Or.inr ⟨c :: la, lb, ?_, lt_trans hc hlt, ?_, h2⟩
        · conv_lhs => rw [heq]
          simp
        · intro q hq
          rcases List.mem_cons.1 hq with rfl | hq
          · exact hlt
          · exact h1 q hq
    · rw [show selStep f a c = a from if_neg hc]
      rcases ih a with ⟨he, hle⟩ | ⟨la, lb, heq, hlt, h1, h2⟩
      · refine Or.inl ⟨he, ?_⟩
        intro q hq
        rcases List.mem_cons.1 hq with rfl | hq
        · exact le_of_not_lt hc
        · exact hle q hq
      · refine Or.inr ⟨c :: la, lb, ?_, hlt, ?_, h2⟩
        · conv_lhs => rw [heq]
          simp
        · intro q hq
          rcases List.mem_cons.1 hq with rfl | hq
          · exact lt_of_le_of_lt (le_of_not_lt hc) hlt
          · exact h1 q hq

/-- Characterization of `selectMax`: on a non-empty list it returns the
first element attaining the maximal rank. -/
lemma selectMax_split {α : Type} (f : α → ℚ) (pools : List α) (h : pools ≠ []) :
    ∃ r la lb, selectMax f pools = some r ∧ pools = la ++ r :: lb ∧
      (∀ q ∈ la, f q < f r) ∧ (∀ q ∈ pools, f q ≤ f r) := by
  match pools with
  | [] => exact absurd rfl h
  | p :: rest =>
    rcases foldl_selStep_split f rest p with ⟨he, hle⟩ | ⟨la, lb, heq, hlt, h1, h2⟩
    · refine ⟨rest.foldl (selStep f) p, [], rest, rfl, by simp [he], by simp, ?_⟩
      · intro q hq
        rw [he]
        rcases List.mem_cons.1 hq with rfl | hq
        · exact le_refl _
        · exact hle q hq
    · refine ⟨rest.foldl (selStep f) p, p :: la, lb, rfl, ?_, ?_, ?_⟩
      · conv_lhs => rw [heq]
        simp
      · intro q hq
        rcases List.mem_cons.1 hq with rfl | hq
        · exact hlt
        · exact h1 q hq
      · intro q hq
        rcases List.mem_cons.1 hq with rfl | hq
        · exact le_of_lt hlt
        · rw [heq] at hq
          rcases List.mem_append.1 hq with hq | hq
          · exact le_of_lt (h1 q hq)
          · rcases List.mem_cons.1 hq with rfl | hq
            · exact le_refl _
            · exact h2 q hq

/-- The part_000 selector is the strict-greater fold. -/
lemma findHighestTvlPool_eq_selectMax (pools : List PoolData) :
    findHighestTvlPool pools = selectMax parseTvl pools := by
  cases pools <;> rfl

/-- Shifting the seed through the strict-greater fold. -/
lemma foldl_selStep_shift {α : Type} (f : α → ℚ) :
    ∀ (l : List α) (a c : α),
      l.foldl (selStep f) (selStep f a c) =
        if f (l.foldl (selStep f) c) > f a then l.foldl (selStep f) c else a := by
  intro l
  induction l with
  | nil => intro a c; simp only [List.foldl_nil, selStep]
  | cons d l ih =>
    intro a c
    rw [List.foldl_cons, List.foldl_cons, ih (selStep f a c) d, ih c d]
    simp only [selStep]
    split_ifs <;> first | rfl | linarith

/-- Inserting adds one element. -/
lemma insertByDesc_length {α : Type} (f : α → ℚ) (p : α) :
    ∀ l : List α, (insertByDesc f p l).length = l.length + 1 := by
  intro l
  induction l with
  | nil => rfl
  | cons q l ih =>
    simp only [insertByDesc]
    split
    · rfl
    · simp [ih]

/-- The stable descending sort preserves length. -/
lemma sortByDesc_length {α : Type} (f : α → ℚ) :
    ∀ l : List α, (sortByDesc f l).length = l.length := by
  intro l
  induction l with
  | nil => rfl
  | cons p l ih =>
    show (insertByDesc f p (sortByDesc f l)).length = l.length + 1
    rw [insertByDesc_length, ih]

/-- Head of an insertion into a non-empty list. -/
lemma insertByDesc_head {α : Type} (f : α → ℚ) (p q : α) (l : List α) :
    (insertByDesc f p (q :: l)).head? = some (if f p ≥ f q then p else q) := by
  simp only [insertByDesc]
  split_ifs <;> rfl

/-- Head of the stable descending sort = first maximum of the list. -/
lemma sortByDesc_head {α : Type} (f : α → ℚ) :
    ∀ l : List α, (sortByDesc f l).head? = selectMax f l := by
  intro l
  induction l with
  | nil => rfl
  | cons p l ih =>
    show (insertByDesc f p (sortByDesc f l)).head? = _
    rcases l with _ | ⟨c, lt⟩
    · rfl
    · rcases hs : sortByDesc f (c :: lt) with _ | ⟨q, t⟩
      · exfalso
        have := sortByDesc_length f (c :: lt)
        rw [hs] at this
        simp at this
      · rw [hs] at ih
        rw [insertByDesc_head]
        have hq : q = lt.foldl (selStep f) c := by
          simpa [selectMax] using ih
        show _ = selectMax f (p :: c :: lt)
        simp only [selectMax, List.foldl_cons]
        rw [foldl_selStep_shift, ← hq]
        congr 1
        split_ifs <;> first | rfl | linarith

/-- The price_final selector also is the strict-greater fold. -/
lemma findHighestLiquidityPool_eq_selectMax (pools : List DlmmPoolData) :
    findHighestLiquidityPool pools = selectMax parseLiquidity pools := by
  cases pools with
  | nil => rfl
  | cons p l =>
    simp only [findHighestLiquidityPool]
    rw [if_neg (by simp)]
    exact sortByDesc_head parseLiquidity (p :: l)

/-! ## Discovery lemmas -/

/-- Every record the DAMM discovery fold accumulates either was already in
the accumulator or passed the SOL-membership filter. -/
lemma fetchDamm_mem_sound :
    ∀ (fetched : List PoolData) (st : List String × List PoolData) (p : PoolData),
      p ∈ (fetched.foldl fetchStepDamm st).2 →
        p ∈ st.2 ∨ (p.token_a_mint = SOL_MINT_B58 ∨ p.token_b_mint = SOL_MINT_B58) := by
  intro fetched
  induction fetched with
  | nil => intro st p hp; exact Or.inl hp
  | cons pool fetched ih =>
    intro st p hp
    rw [List.foldl_cons] at hp
    rcases ih (fetchStepDamm st pool) p hp with hp | hs
    · unfold fetchStepDamm at hp
      split at hp
      · rename_i hcond
        rcases List.mem_append.1 hp with hp | hp
        · exact Or.inl hp
        · rcases List.mem_singleton.1 hp with rfl
          exact Or.inr hcond.2
      · exact Or.inl hp
    · exact Or.inr hs

/-- Membership in the DLMM discovery result unfolds to the acceptance
predicate. -/
lemma fetchDlmm_mem (tk : String) (allPools : List DlmmPoolData) (p : DlmmPoolData) :
    p ∈ fetchSolTokenPoolsDlmm tk allPools ↔ p ∈ allPools ∧ dlmmAccept tk p := by
  unfold fetchSolTokenPoolsDlmm
  rw [List.mem_filter]
  simp [decide_eq_true_iff]

/-! ## Claim theorems -/

/-- C2: for every non-empty candidate list both pool selectors
(`findHighestTvlPool` of part_000 and `findHighestLiquidityPool` of
price_final.ts) return the pool of maximal parsed liquidity/TVL, with the
first-encountered pool keeping priority on exact ties (every pool listed
before the winner ranks strictly below it); on the empty list both return
none. -/
theorem select_firstMax :
    (∀ pools : List PoolData,
      (pools = [] → findHighestTvlPool pools = none) ∧
      (pools ≠ [] → ∃ r la lb, findHighestTvlPool pools = some r ∧
        pools = la ++ r :: lb ∧ (∀ q ∈ la, parseTvl q < parseTvl r) ∧
        (∀ q ∈ pools, parseTvl q ≤ parseTvl r))) ∧
    (∀ pools : List DlmmPoolData,
      (pools = [] → findHighestLiquidityPool pools = none) ∧
      (pools ≠ [] → ∃ r la lb, findHighestLiquidityPool pools = some r ∧
        pools = la ++ r :: lb ∧ (∀ q ∈ la, parseLiquidity q < parseLiquidity r) ∧
        (∀ q ∈ pools, parseLiquidity q ≤ parseLiquidity r))) := by
  constructor
  · intro pools
    constructor
    · rintro rfl; rfl
    · intro h
      rw [findHighestTvlPool_eq_selectMax]
      exact selectMax_split parseTvl pools h
  · intro pools
    constructor
    · rintro rfl; rfl
    · intro h
      rw [findHighestLiquidityPool_eq_selectMax]
      exact selectMax_split parseLiquidity pools h

/-- Witness for `select_firstMax` on a concrete two-pool tie (both pools
have TVL 5): the selector picks a pool preceded only by strictly smaller
ones — i.e. the first. -/
theorem select_firstMax_witness :
    findHighestTvlPool ([] : List PoolData) = none ∧
    (∃ r la lb, findHighestTvlPool [poolW1, poolW2] = some r ∧
      [poolW1, poolW2] = la ++ r :: lb ∧ (∀ q ∈ la, parseTvl q < parseTvl r) ∧
      (∀ q ∈ [poolW1, poolW2], parseTvl q ≤ parseTvl r)) :=
  ⟨(select_firstMax.1 []).1 rfl,
   (select_firstMax.1 [poolW1, poolW2]).2 (List.cons_ne_nil _ _)⟩

/-- C3: counterexample.  The DAMM v2 discovery (part_000) keeps any
API-returned pool containing SOL without re-checking the target token:
`poolOther` pairs SOL with `SomeOtherMint`, yet discovery for token
`TargetMint` returns it, so it is false that in every discovery result one
mint is SOL and the other is the requested token. -/
theorem discovery_filter_counterexample :
    poolOther ∈ fetchSolTokenPoolsDamm "TargetMint" [poolOther] ∧
    poolOther.token_a_mint ≠ "TargetMint" ∧ poolOther.token_b_mint ≠ "TargetMint" := by
  constructor
  · decide
  · constructor <;> decide

/-- C3 (amended): the DAMM v2 discovery guarantees only that every returned
pool has SOL as one of its two mints (the target-token side is enforced
solely by the upstream query parameter, not re-checked); the bin-model
discovery (price_final.ts) does verify both sides: one mint is SOL and the
other is the requested token. -/
theorem discovery_filter_amended :
    (∀ tk fetched, ∀ p ∈ fetchSolTokenPoolsDamm tk fetched,
      p.token_a_mint = SOL_MINT_B58 ∨ p.token_b_mint = SOL_MINT_B58) ∧
    (∀ tk allPools, ∀ p ∈ fetchSolTokenPoolsDlmm tk allPools,
      (jsTrim (jsToLower p.mint_x) = solAddressStr ∧ jsTrim (jsToLower p.mint_y) = tk) ∨
      (jsTrim (jsToLower p.mint_y) = solAddressStr ∧ jsTrim (jsToLower p.mint_x) = tk)) := by
  constructor
  · intro tk fetched p hp
    rcases fetchDamm_mem_sound fetched ([], []) p hp with hp | hs
    · simp at hp
    · exact hs
  · intro tk allPools p hp
    exact ((fetchDlmm_mem tk allPools p).1 hp).2.1

/-- Witness for `discovery_filter_amended` at concrete pools. -/
theorem discovery_filter_amended_witness :
    (poolW1.token_a_mint = SOL_MINT_B58 ∨ poolW1.token_b_mint = SOL_MINT_B58) ∧
    ((jsTrim (jsToLower dlmmW1.mint_x) = solAddressStr ∧
        jsTrim (jsToLower dlmmW1.mint_y) = "targettoken") ∨
      (jsTrim (jsToLower dlmmW1.mint_y) = solAddressStr ∧
        jsTrim (jsToLower dlmmW1.mint_x) = "targettoken")) :=
  ⟨discovery_filter_amended.1 "TargetMint" [poolW1] poolW1 (by decide),
   discovery_filter_amended.2 "targettoken" [dlmmW1] dlmmW1 (by decide)⟩

/-- C10: every pool the bin-model discovery returns has strictly positive
parsed liquidity and strictly positive reserves on both sides, and any
API-returned pool failing one of these positivity checks is excluded from
the candidate set. -/
theorem dlmm_discovery_positive :
    (∀ tk allPools, ∀ p ∈ fetchSolTokenPoolsDlmm tk allPools,
      0 < parseLiquidity p ∧ 0 < p.reserve_x_amount ∧ 0 < p.reserve_y_amount) ∧
    (∀ tk allPools, ∀ p ∈ allPools,
      ¬(0 < parseLiquidity p ∧ 0 < p.reserve_x_amount ∧ 0 < p.reserve_y_amount) →
        p ∉ fetchSolTokenPoolsDlmm tk allPools) := by
  have h1 : ∀ tk allPools, ∀ p ∈ fetchSolTokenPoolsDlmm tk allPools,
      0 < parseLiquidity p ∧ 0 < p.reserve_x_amount ∧ 0 < p.reserve_y_amount := by
    intro tk allPools p hp
    have := ((fetchDlmm_mem tk allPools p).1 hp).2
    exact ⟨this.2.1, this.2.2⟩
  refine ⟨h1, ?_⟩
  intro tk allPools p _ hneg hp
  exact hneg (h1 tk allPools p hp)

/-- Witness for `dlmm_discovery_positive`: the positive pool passes, the
zero-liquidity pool (same mints) is excluded. -/
theorem dlmm_discovery_positive_witness :
    (0 < parseLiquidity dlmmW1 ∧ 0 < dlmmW1.reserve_x_amount ∧
      0 < dlmmW1.reserve_y_amount) ∧
    dlmmZero ∉ fetchSolTokenPoolsDlmm "targettoken" [dlmmW1, dlmmZero] :=
  ⟨dlmm_discovery_positive.1 "targettoken" [dlmmW1, dlmmZero] dlmmW1 (by decide),
   dlmm_discovery_positive.2 "targettoken" [dlmmW1, dlmmZero] dlmmZero (by decide)
     (by decide)⟩

/-- C4: counterexample.  For `poolFeeCE` (SOL is side A, the side-B token
has 6 decimals per `decCE`) the part_000 quoter normalizes the total fee by
10^6 — the OUTPUT token's decimals — not by 10^9, the decimals of the SOL
mint that is always the input side: at raw fee 10^9 the code computes 1000
while the claim requires 1. -/
theorem fee_normalization_counterexample :
    feeDamm poolFeeCE (decCE SOL_MINT_B58) (decCE (outputMintAddr poolFeeCE))
        ((10 : ℚ) ^ 9) = 1000 ∧
    ((10 : ℚ) ^ 9) / 10 ^ decCE SOL_MINT_B58 = 1 ∧ ((1000 : ℚ) ≠ 1) := by
  have hneg : ¬ isSolOutput poolFeeCE := by decide
  have hd : decCE (outputMintAddr poolFeeCE) = 6 := by decide
  have hs : decCE SOL_MINT_B58 = 9 := by decide
  refine ⟨?_, ?_, by norm_num⟩
  · unfold feeDamm
    rw [if_neg hneg, hd]
    norm_num
  · rw [hs]
    norm_num

/-- C4 (amended): the constant-product quoter's normalized fee equals the
raw total fee divided by 10^(decimals of the pool's side-B mint).  When SOL
is side B this coincides with the input-side (SOL) divisor the claim
states; when SOL is side A the divisor is the side-B token's decimals, not
SOL's. -/
theorem fee_normalization_amended (dec : String → ℕ) (pool : PoolData) (totalFee : ℚ)
    (h : pool.token_a_mint = SOL_MINT_B58 ∨ pool.token_b_mint = SOL_MINT_B58) :
    feeDamm pool (dec SOL_MINT_B58) (dec (outputMintAddr pool)) totalFee =
      totalFee / 10 ^ dec pool.token_b_mint := by
  unfold feeDamm outputMintAddr
  by_cases ha : isSolOutput pool
  · simp only [if_pos ha]
    rcases h with h | h
    · exact absurd h ha
    · rw [h]
  · simp only [if_neg ha]

/-- Witness for `fee_normalization_amended` at a SOL-side-A pool. -/
theorem fee_normalization_amended_witness :
    feeDamm poolW1 (decCE SOL_MINT_B58) (decCE (outputMintAddr poolW1)) 1 =
      1 / 10 ^ decCE poolW1.token_b_mint :=
  fee_normalization_amended decCE poolW1 1 (Or.inl rfl)

/-- C5: in the constant-product quoter, whenever the tracked token is side A
the reported price is the exact reciprocal of the raw side-B-per-side-A
price (their product is exactly 1, with no drift); whenever the tracked
token is side B the raw price is passed through unchanged. -/
theorem finalPrice_reciprocal (tk ta : String) (raw : ℚ) (h : raw ≠ 0) :
    (tk = ta → finalPriceDamm tk ta raw = 1 / raw ∧ finalPriceDamm tk ta raw * raw = 1) ∧
    (tk ≠ ta → finalPriceDamm tk ta raw = raw) := by
  constructor
  · intro he
    unfold finalPriceDamm
    rw [if_pos he]
    exact ⟨rfl, one_div_mul_cancel h⟩
  · intro hn
    unfold finalPriceDamm
    rw [if_neg hn]

/-- Witness for `finalPrice_reciprocal` with raw price 2 (tracked token on
side A) and raw price 3 (tracked token on side B). -/
theorem finalPrice_reciprocal_witness :
    (finalPriceDamm "MintA" "MintA" 2 = 1 / 2 ∧ finalPriceDamm "MintA" "MintA" 2 * 2 = 1) ∧
    finalPriceDamm "MintB" "MintA" 3 = 3 :=
  ⟨(finalPrice_reciprocal "MintA" "MintA" 2 (by norm_num)).1 rfl,
   (finalPrice_reciprocal "MintB" "MintA" 3 (by norm_num)).2 (by decide)⟩

/-- C6: the bin-model instantaneous price is exactly
`(1 + s/10000)^b * 10^(dx - dy)` as a pure deterministic function of the
bin step, the (possibly negative) active bin index and the two decimal
counts; for a negative index `-n` it is exactly the decimal factor divided
by the n-th power of the bin base. -/
theorem priceOfYinX_formula (s : ℚ) (b : ℤ) (dx dy n : ℕ) :
    priceOfYinX s b dx dy = (1 + s / 10000) ^ b * (10 : ℚ) ^ ((dx : ℤ) - (dy : ℤ)) ∧
    priceOfYinX s (-(n : ℤ)) dx dy =
      (10 : ℚ) ^ ((dx : ℤ) - (dy : ℤ)) / (1 + s / 10000) ^ n := by
  refine ⟨rfl, ?_⟩
  unfold priceOfYinX
  rw [zpow_neg, zpow_natCast]
  ring

/-- C7: persistence is append-only and self-healing: from an absent,
unreadable or non-array file, N ≥ 1 sequential persist calls produce an
array of exactly the N pushed entries in call order; from a valid array
every sequence of calls appends, keeping all prior entries as a prefix. -/
theorem save_selfHealing_appendOnly :
    (∀ (st : FileState) (es : List SavedEntry), readArray st = [] → es ≠ [] →
      saveMany st es = FileState.array es) ∧
    (∀ (l es : List SavedEntry),
      saveMany (FileState.array l) es = FileState.array (l ++ es)) := by
  have harr : ∀ (es l : List SavedEntry),
      saveMany (FileState.array l) es = FileState.array (l ++ es) := by
    intro es
    induction es with
    | nil => intro l; simp [saveMany]
    | cons e es ih =>
      intro l
      show saveMany (saveFormattedResultToJson (FileState.array l) e) es = _
      rw [show saveFormattedResultToJson (FileState.array l) e
            = FileState.array (l ++ [e]) from rfl]
      rw [ih (l ++ [e])]
      simp
  refine ⟨?_, fun l es => harr es l⟩
  intro st es h0 hne
  rcases es with _ | ⟨e, es⟩
  · exact absurd rfl hne
  · have h1 : saveFormattedResultToJson st e = FileState.array [e] := by
      unfold saveFormattedResultToJson
      rw [h0]
      rfl
    show saveMany (saveFormattedResultToJson st e) es = _
    rw [h1, harr es [e]]
    rfl

/-- Witness for `save_selfHealing_appendOnly`: two calls against an
unreadable file yield exactly those two entries; one call against an
existing one-entry array appends. -/
theorem save_selfHealing_appendOnly_witness :
    saveMany FileState.unreadable [entryW1, entryW2] = FileState.array [entryW1, entryW2] ∧
    saveMany (FileState.array [entryW1]) [entryW2] = FileState.array [entryW1, entryW2] :=
  ⟨save_selfHealing_appendOnly.1 FileState.unreadable [entryW1, entryW2] rfl
      (List.cons_ne_nil _ _),
   save_selfHealing_appendOnly.2 [entryW1] [entryW2]⟩

/-- C8: when discovery yields zero qualifying pools, both realtime-swap-price
implementations return a structured record carrying the "no pool found"
error message and do not throw: part_000 returns `Except.ok` before any
fallible call (quote flag false), price_final returns the record directly. -/
theorem no_pool_found_structured :
    (∀ (tk : String) (env : ChainEnvDamm) (fetched : List PoolData),
      fetchSolTokenPoolsDamm tk fetched = [] →
      getRealtimeSwapPriceDamm tk env fetched =
        (Except.ok (ObsRecord.err "No SOL-token pool found."), false)) ∧
    (∀ (tk : String) (allPools : List DlmmPoolData)
      (tryBlock : DlmmPoolData → Except String ObsRecord),
      fetchSolTokenPoolsDlmm tk allPools = [] →
      getRealtimeSwapPriceDlmm tk allPools tryBlock =
        ObsRecord.err "No DLMM SOL-token pool found.") := by
  constructor
  · intro tk env fetched h
    simp only [getRealtimeSwapPriceDamm, h]
    rfl
  · intro tk allPools tryBlock h
    simp only [getRealtimeSwapPriceDlmm, h]
    rfl

/-- Witness for `no_pool_found_structured` on empty discovery inputs. -/
theorem no_pool_found_structured_witness :
    getRealtimeSwapPriceDamm "TargetMint" envNoState [] =
      (Except.ok (ObsRecord.err "No SOL-token pool found."), false) ∧
    getRealtimeSwapPriceDlmm "targettoken" [] (fun _ => Except.ok recW) =
      ObsRecord.err "No DLMM SOL-token pool found." :=
  ⟨no_pool_found_structured.1 "TargetMint" envNoState [] rfl,
   no_pool_found_structured.2 "targettoken" [] (fun _ => Except.ok recW) rfl⟩

/-- C9: if a pool was selected but the fetched on-chain pool-state object is
absent/empty, the constant-product pass returns the structured
"Failed to fetch or parse valid pool state." record without throwing, and
the quote computation is never reached (quote flag false). -/
theorem poolState_unavailable_no_quote (tk : String) (env : ChainEnvDamm)
    (fetched : List PoolData) (pool : PoolData)
    (hsel : findHighestTvlPool (fetchSolTokenPoolsDamm tk fetched) = some pool)
    (hps : env.fetchPoolState = Except.ok none) :
    getRealtimeSwapPriceDamm tk env fetched =
      (Except.ok (ObsRecord.err "Failed to fetch or parse valid pool state."), false) := by
  simp only [getRealtimeSwapPriceDamm, hsel, hps]

/-- Witness for `poolState_unavailable_no_quote`: a single SOL-paired pool
is selected, the pool-state fetch yields an empty object. -/
theorem poolState_unavailable_no_quote_witness :
    getRealtimeSwapPriceDamm "TargetMint" envNoState [poolW1] =
      (Except.ok (ObsRecord.err "Failed to fetch or parse valid pool state."), false) :=
  poolState_unavailable_no_quote "TargetMint" envNoState [poolW1] poolW1 (by decide) rfl

/-- C1: counterexample.  The try/catch in `main` (src/index.ts) wraps the
WHOLE polling loop, so a pass that throws (e.g. a failing RPC call inside
the quoter) is caught outside the loop: from pass outcomes
[throwing pass, ok pass] the driver persists no observation — in
particular no `{error: ...}` record for the failing pass — and terminates,
so the next scheduled cycle never occurs. -/
theorem driver_crash_counterexample :
    runDriver [Except.error "fetch failed", Except.ok recW] = ([], true) ∧
    ¬((runDriver [Except.error "fetch failed", Except.ok recW]).2 = false ∧
      ObsRecord.err "fetch failed" ∈
        (runDriver [Except.error "fetch failed", Except.ok recW]).1) := by
  exact ⟨rfl, by decide⟩

/-- C1 (amended): errors the quoter itself converts (no pool / no pool
state) come back as ok-records and polling continues, but an exception
thrown inside a pass ends the run: the driver's persisted observations are
exactly the records of the longest prefix of non-throwing passes, and the
driver terminates (control reaches the outer catch) iff some pass throws. -/
theorem driver_okPrefix (ps : List (Except String ObsRecord)) :
    runDriver ps = ((ps.takeWhile passIsOk).filterMap passRecord,
      ps.any (fun e => !passIsOk e)) := by
  induction ps with
  | nil => rfl
  | cons e ps ih =>
    cases e with
    | ok r =>
      show (r :: (runDriver ps).1, (runDriver ps).2) = _
      rw [ih]
      simp [passIsOk, passRecord]
    | error m => simp [runDriver, passIsOk]
